import Mathlib

/-!
Verification of the SecureAPK static-analysis core against its specification.

The Python sources are shallowly embedded:

* real-valued arithmetic performed with Python floats is modelled over `ℚ`
  (for the fusion engine, where every operation is exact) and over `ℝ`
  (for Shannon entropy, which uses a transcendental logarithm);
* Python `None`/absent values become `Option`;
* an uncaught Python exception becomes `Except.error`;
* external libraries (androguard, apkutils2, PIL/imagehash, hashlib, the
  `re` engine, the network) are modelled as function parameters: they are
  deterministic functions of their inputs, but their internals are not part
  of this repository.
-/

namespace SecureAPK

/-! ## Signal fusion (`app.py`, `combine_ml_vt_mb`)

```python
def combine_ml_vt_mb(ml_prob, vt_detections, vt_total, mb_detections):
    vt_score = (vt_detections/vt_total) if vt_total>0 else 0
    mb_score = 1.0 if mb_detections > 0 else 0
    final_score = 0.7*ml_prob + 0.15*vt_score + 0.15*mb_score
    final_score = min(final_score, 1.0)
    if vt_detections > 5 or mb_detections > 0:
        decision = "Likely Malware (Confirmed)"
    elif vt_detections==0 and mb_detections==0 and ml_prob>0.7:
        decision = "Suspicious (New Malware?)"
    elif vt_detections==0 and mb_detections==0 and ml_prob<0.3:
        decision = "Likely Safe"
    else:
        decision = "Potentially Risky"
    return final_score, decision
```

Detection counts are Python ints (`ℤ`), the probability a float (`ℚ`). -/

def combine_ml_vt_mb (ml_prob : ℚ) (vt_detections vt_total mb_detections : ℤ) :
    ℚ × String :=
  let vt_score : ℚ := if vt_total > 0 then (vt_detections : ℚ) / (vt_total : ℚ) else 0
  let mb_score : ℚ := if mb_detections > 0 then 1 else 0
  let final_score : ℚ := min (7/10 * ml_prob + 15/100 * vt_score + 15/100 * mb_score) 1
  let decision : String :=
    if vt_detections > 5 ∨ mb_detections > 0 then "Likely Malware (Confirmed)"
    else if vt_detections = 0 ∧ mb_detections = 0 ∧ ml_prob > 7/10 then
      "Suspicious (New Malware?)"
    else if vt_detections = 0 ∧ mb_detections = 0 ∧ ml_prob < 3/10 then
      "Likely Safe"
    else "Potentially Risky"
  (final_score, decision)

/-! ## Trust database loading (`static_analyzer.py`, `_load_trusted_data`)

```python
def _load_trusted_data(json_path: str) -> dict:
    if not os.path.exists(json_path):
        return {"trusted_certs": [], "trusted_icons": [], "bank_packages": []}
    with open(json_path, 'r', encoding='utf-8') as f:
        return json.load(f)
```

The trust source on disk either does not exist, exists and parses as JSON
(yielding some trust data), or exists with unparsable contents, in which
case `json.load` raises `json.JSONDecodeError`; there is no handler, so the
exception propagates (`Except.error`). -/

structure TrustData where
  trusted_certs : List String
  trusted_icons : List String
  bank_packages : List String
deriving DecidableEq, Repr

inductive TrustSource where
  /-- the check `os.path.exists(json_path)` is false. -/
  | missing : TrustSource
  /-- the file exists and `json.load` returns `d`. -/
  | parsed (d : TrustData) : TrustSource
  /-- the file exists and `json.load` raises. -/
  | malformed : TrustSource
deriving DecidableEq

def load_trusted_data : TrustSource → Except Unit TrustData
  | .missing => .ok ⟨[], [], []⟩
  | .parsed d => .ok d
  | .malformed => .error ()

/-! ## Printable-string extraction (`utils.py`, `extract_all_strings`)

```python
def extract_all_strings(data: bytes, min_len: int = 5):
    out, acc = [], []
    for b in data or b"":
        if 32 <= b <= 126:
            acc.append(chr(b))
        else:
            if len(acc) >= min_len:
                out.append(''.join(acc))
            acc = []
    if len(acc) >= min_len:
        out.append(''.join(acc))
    return out
```

Bytes are `Fin 256`; the loop is the recursion on the remaining input with
the `out`/`acc` state carried along. -/

def byteChar (b : Fin 256) : Char := Char.ofNat b.val

def extractLoop (min_len : Nat) :
    List (Fin 256) → List String → List Char → List String
  | [], out, acc => if acc.length ≥ min_len then out ++ [String.mk acc] else out
  | b :: rest, out, acc =>
    if 32 ≤ b.val ∧ b.val ≤ 126 then
      extractLoop min_len rest out (acc ++ [byteChar b])
    else if acc.length ≥ min_len then
      extractLoop min_len rest (out ++ [String.mk acc]) []
    else
      extractLoop min_len rest out []

/-- Python's `data or b""` maps `None` to the empty byte string. -/
def extract_all_strings (data : Option (List (Fin 256))) (min_len : Nat := 5) :
    List String :=
  extractLoop min_len (data.getD []) [] []

/-! ## Archive-entry extraction (`utils.py`, `extract_zip_entry_bytes`)

```python
def extract_zip_entry_bytes(apk_path: str, name_contains: str):
    try:
        with ZipFile(apk_path, 'r') as z:
            for n in z.namelist():
                if name_contains.lower() in n.lower():
                    return z.read(n)
    except BadZipFile:
        return None
    return None
```

Opening the file either yields the entry list (name/bytes pairs in archive
enumeration order), raises `BadZipFile` (the file exists but is not a valid
zip), or raises some other `OSError` such as `FileNotFoundError`.  Only
`BadZipFile` is caught; other exceptions propagate. -/

inductive Zip where
  /-- opening with `ZipFile` succeeds: entries in enumeration order, with their bytes. -/
  | ok (entries : List (String × List (Fin 256))) : Zip
  /-- opening with `ZipFile` raises `BadZipFile`. -/
  | badZip : Zip
  /-- opening with `ZipFile` raises some exception other than `BadZipFile`
  (e.g. `FileNotFoundError` for a missing path). -/
  | ioError : Zip

/-- Python `str.lower()`: character-wise lowercasing (ASCII case folding suffices
for the data in play). -/
def strLower (s : String) : String := String.mk (s.data.map Char.toLower)

/-- Python's `sub in s` substring test: `sub` occurs contiguously in `s`. -/
def containsSub (sub s : String) : Bool := decide (List.IsInfix sub.data s.data)

def extract_zip_entry_bytes (z : Zip) (name_contains : String) :
    Except Unit (Option (List (Fin 256))) :=
  match z with
  | .ok entries =>
    .ok ((entries.find? fun e => containsSub (strLower name_contains) (strLower e.1)).map
      (·.2))
  | .badZip => .ok none
  | .ioError => .error ()

/-! ## Shannon entropy (`utils.py`, `shannon_entropy`)

```python
def shannon_entropy(data: bytes) -> float:
    if not data:
        return 0.0
    freq = [0] * 256
    for b in data:
        freq[b] += 1
    entropy = 0.0
    length = len(data)
    for c in freq:
        if c:
            p = c / length
            entropy -= p * math.log2(p)
    return entropy
```

The frequency table is the per-byte count; the final loop is a sum over
the 256 byte values, skipping zero counts.  Float arithmetic is modelled
over `ℝ` with the exact base-2 logarithm. -/

noncomputable def shannon_entropy (data : List (Fin 256)) : ℝ :=
  if data.length = 0 then 0
  else ∑ b : Fin 256,
    if data.count b ≠ 0 then
      -(((data.count b : ℝ) / (data.length : ℝ)) *
        Real.logb 2 ((data.count b : ℝ) / (data.length : ℝ)))
    else 0

/-! ## Icon-hash similarity (`icon_utils.py`, `similarity_score`)

```python
def similarity_score(hash1: str, hash2: str) -> float:
    if not hash1 or not hash2:
        return 0.0
    h1 = imagehash.hex_to_hash(hash1)
    h2 = imagehash.hex_to_hash(hash2)
    max_bits = h1.hash.size
    dist = (h1 - h2)
    return 1.0 - (dist / max_bits)
```

A hash value is modelled after `imagehash.hex_to_hash` has decoded the hex
string into its bit matrix: `List Bool` (flattened bits), with `none` for a
falsy (absent or empty) input string.  `h1 - h2` is the Hamming distance of
the two bit matrices and `h1.hash.size` the bit count of the *first* hash
(the library raises on shape mismatch, so the value below is only the
code's value when the bit lengths agree). -/

def hammingDist (a b : List Bool) : Nat :=
  (List.zipWith (fun x y => x != y) a b).count true

def similarity_score (hash1 hash2 : Option (List Bool)) : ℚ :=
  match hash1, hash2 with
  | some h1, some h2 => 1 - (hammingDist h1 h2 : ℚ) / (h1.length : ℚ)
  | _, _ => 0

/-! ## Manifest extraction backends (`static_analyzer.py`)

`_extract_manifest_with_androguard` / `_extract_manifest_with_apkutils`
both have the shape

```python
def _extract_manifest_with_X(apk_path: str):
    if not X_APK:          # library failed to import
        return None
    try:
        ...                # library-specific extraction
        return {'package': ..., 'label': ..., 'version_name': ...,
                'version_code': ..., 'permissions': ..., 'cert_fingerprint': ...,
                'icon_hint': ...}
    except Exception:
        return None
```

The library-specific body is external code (androguard / apkutils2): it is
modelled as a function of the archive that either returns a record or
raises.  The wrapper turns unavailability and any raised exception into
`None`. -/

structure ExtractionRecord where
  package : Option String
  label : Option String
  version_name : Option String
  version_code : Option String
  permissions : List String
  cert_fingerprint : Option String
  icon_hint : Option String
deriving DecidableEq, Repr

def run_backend (avail : Bool) (body : Except Unit ExtractionRecord) :
    Option ExtractionRecord :=
  if avail then body.toOption else none

/-- the fallback `meta = _extract_manifest_with_androguard(p) or _extract_manifest_with_apkutils(p) or {}`
(kept as an `Option`, the final `or {}` being the `.getD`/`.bind` defaults
applied to the fields below).  A successful backend returns a non-empty
dict, which is truthy, so Python's `or` is exactly `Option.orElse`. -/
def choose_meta (ag au : Option ExtractionRecord) : Option ExtractionRecord :=
  ag.orElse fun _ => au

/-! ## Sensitive permissions (`static_analyzer.py`, `DANGEROUS_PERMS`)

```python
dangerous = sorted(set(perms).intersection(DANGEROUS_PERMS))
```
-/

def DANGEROUS_PERMS : List String :=
  ["android.permission.READ_SMS", "android.permission.RECEIVE_SMS",
   "android.permission.SEND_SMS", "android.permission.READ_CONTACTS",
   "android.permission.WRITE_CONTACTS", "android.permission.READ_PHONE_STATE",
   "android.permission.CALL_PHONE", "android.permission.PROCESS_OUTGOING_CALLS",
   "android.permission.RECORD_AUDIO", "android.permission.READ_EXTERNAL_STORAGE",
   "android.permission.WRITE_EXTERNAL_STORAGE",
   "android.permission.SYSTEM_ALERT_WINDOW",
   "android.permission.REQUEST_INSTALL_PACKAGES"]

/-- the derivation `sorted(set(perms).intersection(DANGEROUS_PERMS))`: the intersection of
the two sets, listed in ascending lexicographic string order.  Python's
string `<` and Lean's `≤` on `String` are both code-point lexicographic. -/
def dangerous_of (perms : List String) : List String :=
  (perms.toFinset ∩ DANGEROUS_PERMS.toFinset).sort (· ≤ ·)

/-! ## Certificate trust matching (`static_analyzer.py`, `analyze_apk`)

```python
trusted_certs = {c.lower() for c in trusted.get('trusted_certs', [])}
cert_match = (cert_fp and cert_fp.lower() in trusted_certs) or False
```

`cert_fp` is `None` or a string; `None` and `""` are falsy. -/

def cert_match_of (fp : Option String) (trusted_certs : List String) : Bool :=
  match fp with
  | none => false
  | some s => if s = "" then false else (trusted_certs.map strLower).contains (strLower s)

/-! ## Suspicious-string classification (`utils.py`, `count_suspicious_strings`)

```python
urls = [s for s in strings if URL_REGEX.search(s)]
ips = [s for s in strings if IP_REGEX.search(s)]
kw_hits = sum(any(k in s.lower() for k in keywords) for s in strings)
return {"urls": urls, "ips": ips, "keywords": kw_hits,
        "url_count": len(urls), "ip_count": len(ips), "keyword_hits": int(kw_hits)}
```

The two compiled regexes are evaluated by the external `re` engine; they
are modelled as Boolean test functions on strings.  The keyword test is a
plain substring check, embedded directly. -/

def KEYWORDS : List String :=
  ["login", "signin", "signup", "user", "username", "userid",
   "password", "passwd", "pwd", "passcode", "pin", "mpin", "credential", "creds",
   "otp", "totp", "mfa", "2fa", "auth", "authenticate", "token", "sessionid",
   "bank", "banking", "netbanking", "ifsc", "upi", "imps", "neft", "rtgs", "swift",
   "account", "accno", "acno", "iban", "sortcode", "routing", "balance",
   "transaction", "txn", "transfer", "payment", "payout", "deposit", "withdrawal",
   "atm", "card", "debit", "credit", "cvc", "cvv", "expdate", "expiry", "mastercard",
   "visa", "rupay", "amex", "wallet", "paytm", "gpay", "googlepay", "phonepe",
   "bhim", "paypal", "stripe", "cashapp", "venmo", "zelle",
   "verify", "verification", "update", "reset", "recover", "unlock", "lock",
   "security", "secure", "confidential", "secret", "confidentiality",
   "key", "privatekey", "publickey", "apikey", "jwt", "license", "serial",
   "free", "prize", "winner", "lottery", "offer", "bonus", "promotion", "deal",
   "click", "link", "download", "install", "setup", "activate", "activation",
   "urgent", "alert", "important", "attention", "warning", "suspend", "disabled",
   "blocked", "breach", "compromise", "hacked", "unauthorized", "illegal", "fraud",
   "exploit", "shell", "payload", "reverse", "meterpreter", "bind", "inject",
   "execute", "cmd", "command", "powershell", "bash", "sh", "exe", "dll", "so", "bin",
   "registry", "hkey", "startup", "boot", "autorun", "persistence", "rootkit",
   "keylogger", "logger", "capture", "screenshot", "spy", "steal", "exfil",
   "encrypt", "decrypt", "ransom", "bitcoin", "btc", "monero", "xmr", "crypto",
   "email", "mail", "outlook", "gmail", "yahoo", "hotmail", "imap", "smtp", "pop3",
   "office365", "o365", "exchange", "webmail", "phish", "spoof", "spoofed",
   "ssn", "dob", "pan", "aadhar", "aadhaar", "passport", "drivinglicense",
   "insurance", "medical", "policy", "tax", "irs", "income", "salary", "payroll"]

structure Suspicious where
  urls : List String
  ips : List String
  keywords : Nat
  url_count : Nat
  ip_count : Nat
  keyword_hits : Nat
deriving DecidableEq, Repr

def count_suspicious_strings (urlTest ipTest : String → Bool)
    (strings : List String) : Suspicious :=
  let urls := strings.filter urlTest
  let ips := strings.filter ipTest
  let kw_hits :=
    (strings.filter fun s => KEYWORDS.any fun k => containsSub k (strLower s)).length
  ⟨urls, ips, kw_hits, urls.length, ips.length, kw_hits⟩

/-! ## The analysis orchestrator (`static_analyzer.py`, `analyze_apk`)

The orchestrator sequences the functions above over one archive.  Remaining
external pieces, all deterministic functions of their arguments:

* `ag_avail`/`au_avail` and `ag_body`/`au_body`: availability of the
  androguard / apkutils2 imports, and their library-specific extraction
  bodies (which may raise);
* `iconF`: `extract_primary_icon` composed with `icon_phash`
  (`icon_utils.py` plus PIL/imagehash) — yields the icon perceptual hash if
  an icon was found and decoded; may raise (`extract_primary_icon` opens
  the archive with no handler);
* `shaF`: `sha256_file` — the hex digest, a function of the file bytes;
* `simF`: `similarity_score` at the hex-string level (imagehash parsing of
  the stored trusted hashes included);
* `urlTest`/`ipTest`: the compiled `URL_REGEX`/`IP_REGEX` searches;
* `vtF`, over an abstract network-state type `Net`: `vt_lookup_sha256`,
  only consulted when `vt_enabled` (default `False`, as at the call site in
  `app.py`). -/

structure VtResult where
  detections : ℤ
  total : ℤ
deriving DecidableEq, Repr

structure AnalysisResult where
  sha256 : String
  package : Option String
  app_label : Option String
  version_name : Option String
  version_code : Option String
  permissions : List String
  dangerous_permissions : List String
  cert_fingerprint : Option String
  cert_trusted_match : Bool
  icon_hash : Option String
  icon_similarity_score : ℚ
  entropy_classes_dex : ℝ
  suspicious : Suspicious
  vt : VtResult

/-- Python truthiness of the `classes` byte string: `None` and `b""` are falsy. -/
def bytesTruthy : Option (List (Fin 256)) → Bool
  | some (_ :: _) => true
  | _ => false

noncomputable def analyze_apk {Net : Type}
    (ag_avail : Bool) (ag_body : Zip → Except Unit ExtractionRecord)
    (au_avail : Bool) (au_body : Zip → Except Unit ExtractionRecord)
    (iconF : Zip → Option String → Except Unit (Option String))
    (shaF : Zip → String) (simF : String → String → ℚ)
    (urlTest ipTest : String → Bool) (vtF : Net → String → VtResult)
    (z : Zip) (trusted_src : TrustSource) (net : Net)
    (vt_enabled : Bool := false) : Except Unit AnalysisResult := do
  let meta := choose_meta (run_backend ag_avail (ag_body z))
    (run_backend au_avail (au_body z))
  let pkg := meta.bind (·.package)
  let label := meta.bind (·.label)
  let version_name := meta.bind (·.version_name)
  let version_code := meta.bind (·.version_code)
  let perms := (meta.map (·.permissions)).getD []
  let dangerous := dangerous_of perms
  let classes ← extract_zip_entry_bytes z "classes.dex"
  let entropy : ℝ := if bytesTruthy classes then shannon_entropy (classes.getD []) else 0
  let strings0 := if bytesTruthy classes then extract_all_strings classes else []
  let strings ←
    if strings0.isEmpty then do
      let manifest_bytes ← extract_zip_entry_bytes z "AndroidManifest.xml"
      pure (extract_all_strings (some (manifest_bytes.getD [])))
    else pure strings0
  let suspicious := count_suspicious_strings urlTest ipTest strings
  let icon_hint := meta.bind (·.icon_hint)
  let icon_hash ← iconF z icon_hint
  let sha := shaF z
  let vt := if vt_enabled then vtF net sha else ⟨0, 0⟩
  let trusted ← load_trusted_data trusted_src
  let cert_fp := meta.bind (·.cert_fingerprint)
  let cert_match := cert_match_of cert_fp trusted.trusted_certs
  let icon_sim : ℚ :=
    match icon_hash with
    | some s =>
      if s = "" then 0
      else trusted.trusted_icons.foldl (fun acc h => max acc (simF s h)) 0
    | none => 0
  pure ⟨sha, pkg, label, version_name, version_code, perms, dangerous, cert_fp,
    cert_match, icon_hash, icon_sim, entropy, suspicious, vt⟩

/-! ## Theorems -/

/-- C1: the fusion function is total, its score is
`min(0.7·mlProbability + 0.15·ratio + 0.15·secondarySignal, 1)` with
`ratio = detections/total` when `total > 0` (else `0`) and
`secondarySignal = 1` when `secondaryDetections > 0` (else `0`); the verdict
follows the exact four-way precedence (confirmed-malicious first, then
suspicious, then likely-safe, else potentially-risky); and
`(0.8, 0, 0, 0)` yields the suspicious verdict with score `0.56` while
`(0.1, 10, 20, 0)` yields the confirmed-malicious verdict with score
`0.145`. -/
theorem combine_ml_vt_mb_spec :
    (∀ (ml : ℚ) (vd vt mb : ℤ),
      (combine_ml_vt_mb ml vd vt mb).1 =
        min (7/10 * ml
          + 15/100 * (if vt > 0 then (vd : ℚ) / (vt : ℚ) else 0)
          + 15/100 * (if mb > 0 then 1 else 0)) 1
      ∧ (combine_ml_vt_mb ml vd vt mb).2 =
        (if vd > 5 ∨ mb > 0 then "Likely Malware (Confirmed)"
         else if vd = 0 ∧ mb = 0 ∧ ml > 7/10 then "Suspicious (New Malware?)"
         else if vd = 0 ∧ mb = 0 ∧ ml < 3/10 then "Likely Safe"
         else "Potentially Risky"))
    ∧ combine_ml_vt_mb (8/10) 0 0 0 = (56/100, "Suspicious (New Malware?)")
    ∧ combine_ml_vt_mb (1/10) 10 20 0 = (145/1000, "Likely Malware (Confirmed)") := by
  refine ⟨fun ml vd vt mb => ⟨rfl, rfl⟩, ?_, ?_⟩ <;>
    norm_num [combine_ml_vt_mb, min_def, Prod.ext_iff]

/-- C2, counterexample: the claim says loading the trust database never
raises even when the contents are unparsable, but on an existing file whose
contents `json.load` cannot parse the exception propagates out of
`_load_trusted_data`. -/
theorem load_trusted_data_malformed_raises :
    load_trusted_data TrustSource.malformed = Except.error () := rfl

/-- C2, amended: loading the trust database from a missing source file
returns the empty trust database without raising, and a parsable source is
returned as parsed; only an existing-but-unparsable source raises. -/
theorem load_trusted_data_spec :
    load_trusted_data TrustSource.missing = Except.ok ⟨[], [], []⟩
    ∧ (∀ d, load_trusted_data (TrustSource.parsed d) = Except.ok d)
    ∧ ∀ s, (load_trusted_data s).isOk = true ↔ s ≠ TrustSource.malformed := by
  refine ⟨rfl, fun d => rfl, fun s => ?_⟩
  cases s <;> simp [load_trusted_data, Except.isOk, Except.toBool]

lemma hammingDist_nil_right (a : List Bool) : hammingDist a [] = 0 := by
  cases a <;> rfl

lemma hammingDist_comm : ∀ a b : List Bool, hammingDist a b = hammingDist b a := by
  intro a
  induction a with
  | nil => intro b; rw [hammingDist_nil_right]; rfl
  | cons x xs ih =>
    intro b
    cases b with
    | nil => rw [hammingDist_nil_right]; rfl
    | cons y ys =>
      simp only [hammingDist, List.zipWith] at *
      rw [List.count_cons, List.count_cons, ih ys]
      congr 1
      cases x <;> cases y <;> rfl

lemma hammingDist_self : ∀ a : List Bool, hammingDist a a = 0 := by
  intro a
  induction a with
  | nil => rfl
  | cons x xs ih =>
    simp only [hammingDist, List.zipWith] at *
    rw [List.count_cons, ih]
    cases x <;> rfl

/-- C8: the similarity score is `1 − Hamming distance / bit length`; it is
`0` when either hash is absent; it is symmetric on equal-length hashes (the
only case in which both orientations are defined); and a valid (non-empty)
hash has similarity `1` with itself. -/
theorem similarity_score_spec :
    (∀ h1 h2 : List Bool, h1.length = h2.length →
      similarity_score (some h1) (some h2) =
        1 - (hammingDist h1 h2 : ℚ) / (h1.length : ℚ))
    ∧ (∀ x, similarity_score none x = 0 ∧ similarity_score x none = 0)
    ∧ (∀ h1 h2 : List Bool, h1.length = h2.length →
      similarity_score (some h1) (some h2) = similarity_score (some h2) (some h1))
    ∧ (∀ h : List Bool, h ≠ [] → similarity_score (some h) (some h) = 1) := by
  refine ⟨fun h1 h2 _ => rfl, fun x => ⟨rfl, by cases x <;> rfl⟩,
    fun h1 h2 hlen => ?_, fun h hne => ?_⟩
  · simp only [similarity_score, hammingDist_comm h1 h2, hlen]
  · simp only [similarity_score, hammingDist_self h, Nat.cast_zero, zero_div,
      sub_zero]

/-- C8 witness: the theorem applied at concrete hashes. -/
theorem similarity_score_spec_witness :
    similarity_score (some [true, false, true, true]) (some [false, false, true, true])
      = similarity_score (some [false, false, true, true]) (some [true, false, true, true])
    ∧ similarity_score (some [true, false]) (some [true, false]) = 1
    ∧ similarity_score (some [true, false, true, true]) (some [false, false, true, true])
      = 1 - (hammingDist [true, false, true, true] [false, false, true, true] : ℚ) / 4 :=
  ⟨similarity_score_spec.2.2.1 _ _ rfl,
   similarity_score_spec.2.2.2 [true, false] (by decide),
   similarity_score_spec.1 _ _ rfl⟩

lemma extractLoop_out (m : Nat) :
    ∀ (data : List (Fin 256)) (out : List String) (acc : List Char),
      extractLoop m data out acc = out ++ extractLoop m data [] acc := by
  intro data
  induction data with
  | nil =>
    intro out acc
    simp only [extractLoop]
    by_cases h : acc.length ≥ m <;> simp [h]
  | cons b rest ih =>
    intro out acc
    simp only [extractLoop]
    by_cases hb : 32 ≤ b.val ∧ b.val ≤ 126
    · simp only [if_pos hb]
      exact ih out (acc ++ [byteChar b])
    · simp only [if_neg hb]
      by_cases ha : acc.length ≥ m
      · simp only [if_pos ha, List.nil_append]
        rw [ih (out ++ [String.mk acc]) [], ih [String.mk acc] [], List.append_assoc]
      · simp only [if_neg ha]
        exact ih out []

lemma extractLoop_split (m : Nat) (c : Fin 256) (hc : ¬(32 ≤ c.val ∧ c.val ≤ 126)) :
    ∀ (xs ys : List (Fin 256)) (out : List String) (acc : List Char),
      extractLoop m (xs ++ c :: ys) out acc =
        extractLoop m ys (extractLoop m xs out acc) [] := by
  intro xs
  induction xs with
  | nil =>
    intro ys out acc
    by_cases ha : acc.length ≥ m <;> simp [extractLoop, hc, ha]
  | cons b xs ih =>
    intro ys out acc
    by_cases hb : 32 ≤ b.val ∧ b.val ≤ 126
    · simp only [List.cons_append, extractLoop, if_pos hb]
      exact ih ys out (acc ++ [byteChar b])
    · by_cases ha : acc.length ≥ m <;>
        simp only [List.cons_append, extractLoop, if_neg hb, if_pos, if_neg, ha,
          ite_true, ite_false, if_true, if_false] <;>
      first
        | exact ih ys (out ++ [String.mk acc]) []
        | exact ih ys out []

lemma extractLoop_printable (m : Nat) :
    ∀ (xs : List (Fin 256)) (acc : List Char),
      (∀ b ∈ xs, 32 ≤ b.val ∧ b.val ≤ 126) →
      extractLoop m xs [] acc =
        if m ≤ (acc ++ xs.map byteChar).length then [String.mk (acc ++ xs.map byteChar)]
        else [] := by
  intro xs
  induction xs with
  | nil => intro acc _; simp [extractLoop, ge_iff_le]
  | cons b xs ih =>
    intro acc h
    have hb := h b (List.mem_cons_self b xs)
    simp only [extractLoop, if_pos hb]
    rw [ih (acc ++ [byteChar b]) fun x hx => h x (List.mem_cons_of_mem b hx)]
    simp [List.append_assoc]

lemma extractLoop_mem_length (m : Nat) :
    ∀ (data : List (Fin 256)) (out : List String) (acc : List Char) (s : String),
      s ∈ extractLoop m data out acc → s ∈ out ∨ m ≤ s.length := by
  intro data
  induction data with
  | nil =>
    intro out acc s hs
    simp only [extractLoop] at hs
    by_cases ha : acc.length ≥ m
    · rw [if_pos ha] at hs
      rcases List.mem_append.mp hs with h | h
      · exact Or.inl h
      · right
        rcases List.mem_singleton.mp h with rfl
        simpa [String.length] using ha
    · rw [if_neg ha] at hs; exact Or.inl hs
  | cons b rest ih =>
    intro out acc s hs
    simp only [extractLoop] at hs
    by_cases hb : 32 ≤ b.val ∧ b.val ≤ 126
    · rw [if_pos hb] at hs; exact ih out (acc ++ [byteChar b]) s hs
    · rw [if_neg hb] at hs
      by_cases ha : acc.length ≥ m
      · rw [if_pos ha] at hs
        rcases ih (out ++ [String.mk acc]) [] s hs with h | h
        · rcases List.mem_append.mp h with h' | h'
          · exact Or.inl h'
          · right
            rcases List.mem_singleton.mp h' with rfl
            simpa [String.length] using ha
        · exact Or.inr h
      · rw [if_neg ha] at hs; exact ih out [] s hs

set_option maxRecDepth 8000

/-- C4: the printable-string extractor accumulates runs of bytes in
`[32, 126]`; any byte outside that range terminates the current run, so the
output of a buffer splits at such a byte; an all-printable buffer yields
its single run exactly when its length reaches `minLength`, which also
covers the flush of the final run at end-of-buffer; every emitted string
has length at least `minLength`; and `b"AB\x00CDEFG\x01"` with
`minLength = 5` yields exactly `["CDEFG"]`. -/
theorem extract_all_strings_spec :
    (∀ (m : Nat) (xs ys : List (Fin 256)) (c : Fin 256),
      ¬(32 ≤ c.val ∧ c.val ≤ 126) →
      extract_all_strings (some (xs ++ c :: ys)) m
        = extract_all_strings (some xs) m ++ extract_all_strings (some ys) m)
    ∧ (∀ (m : Nat) (xs : List (Fin 256)),
      (∀ b ∈ xs, 32 ≤ b.val ∧ b.val ≤ 126) →
      extract_all_strings (some xs) m
        = if m ≤ xs.length then [String.mk (xs.map byteChar)] else [])
    ∧ (∀ (m : Nat) (data : Option (List (Fin 256))) (s : String),
      s ∈ extract_all_strings data m → m ≤ s.length)
    ∧ extract_all_strings (some [65, 66, 0, 67, 68, 69, 70, 71, 1]) 5 = ["CDEFG"] := by
  refine ⟨fun m xs ys c hc => ?_, fun m xs h => ?_, fun m data s hs => ?_, by decide⟩
  · show extractLoop m (xs ++ c :: ys) [] [] = _
    rw [extractLoop_split m c hc xs ys [] [], extractLoop_out m ys _ []]
    rfl
  · show extractLoop m xs [] [] = _
    rw [extractLoop_printable m xs [] h]
    simp
  · rcases extractLoop_mem_length m (data.getD []) [] [] s hs with h | h
    · cases h
    · exact h

/-- C4 witness: the structural clauses of the theorem applied at concrete
buffers, and the minimum-length clause applied to the example output. -/
theorem extract_all_strings_spec_witness :
    extract_all_strings (some ([65] ++ (0 : Fin 256) :: [70])) 1
      = extract_all_strings (some [65]) 1 ++ extract_all_strings (some [70]) 1
    ∧ extract_all_strings (some [72, 73]) 2
      = (if 2 ≤ ([72, 73] : List (Fin 256)).length
         then [String.mk (([72, 73] : List (Fin 256)).map byteChar)] else [])
    ∧ 5 ≤ "CDEFG".length :=
  ⟨extract_all_strings_spec.1 1 [65] [70] 0 (by decide),
   extract_all_strings_spec.2.1 2 [72, 73] (by decide),
   extract_all_strings_spec.2.2.1 5 (some [65, 66, 0, 67, 68, 69, 70, 71, 1])
     "CDEFG" (by decide)⟩

/-- C6: the archive-entry extractor matches the name substring
case-insensitively, returns the bytes of the first matching entry in
archive enumeration order, and returns absent — not an error — when no
entry matches or when the archive is not readable as a zip
(`BadZipFile`). -/
theorem extract_zip_entry_bytes_spec :
    (∀ (pre post : List (String × List (Fin 256))) (e : String × List (Fin 256))
      (name : String),
      (∀ x ∈ pre, containsSub (strLower name) (strLower x.1) = false) →
      containsSub (strLower name) (strLower e.1) = true →
      extract_zip_entry_bytes (Zip.ok (pre ++ e :: post)) name = Except.ok (some e.2))
    ∧ (∀ (entries : List (String × List (Fin 256))) (name : String),
      (∀ x ∈ entries, containsSub (strLower name) (strLower x.1) = false) →
      extract_zip_entry_bytes (Zip.ok entries) name = Except.ok none)
    ∧ (∀ name, extract_zip_entry_bytes Zip.badZip name = Except.ok none) := by
  refine ⟨fun pre post e name hpre he => ?_, fun entries name hnone => ?_,
    fun name => rfl⟩
  · simp only [extract_zip_entry_bytes, List.find?_append]
    rw [List.find?_eq_none.mpr (by simpa using hpre), Option.none_or,
      List.find?_cons]
    simp [he]
  · simp only [extract_zip_entry_bytes]
    rw [List.find?_eq_none.mpr (by simpa using hnone)]
    rfl

/-- C6 witness: the theorem applied to a concrete archive whose second
entry matches case-insensitively, and to a no-match archive. -/
theorem extract_zip_entry_bytes_spec_witness :
    extract_zip_entry_bytes
      (Zip.ok ([("foo.txt", [1])] ++ ("res/CLASSES.dex", [9]) :: [])) "classes"
      = Except.ok (some [9])
    ∧ extract_zip_entry_bytes (Zip.ok [("foo.txt", [1])]) "classes" = Except.ok none :=
  ⟨extract_zip_entry_bytes_spec.1 [("foo.txt", [1])] [] ("res/CLASSES.dex", [9])
      "classes" (by decide) (by decide),
   extract_zip_entry_bytes_spec.2.1 [("foo.txt", [1])] "classes" (by decide)⟩

lemma sum_count_eq_length (l : List (Fin 256)) :
    ∑ b : Fin 256, l.count b = l.length := by
  induction l with
  | nil => simp
  | cons x xs ih =>
    simp only [List.count_cons]
    rw [Finset.sum_add_distrib, ih]
    simp [List.length_cons]

lemma shannon_entropy_eq (data : List (Fin 256)) (h : data ≠ []) :
    shannon_entropy data =
      (∑ b : Fin 256,
        Real.negMulLog ((data.count b : ℝ) / (data.length : ℝ))) / Real.log 2 := by
  rw [shannon_entropy, if_neg (by simpa using h), Finset.sum_div]
  refine Finset.sum_congr rfl fun b _ => ?_
  by_cases hb : data.count b = 0
  · simp [hb]
  · rw [if_pos hb, Real.logb, Real.negMulLog]
    ring

lemma count_div_length_mem_Icc (data : List (Fin 256)) (b : Fin 256) :
    (data.count b : ℝ) / (data.length : ℝ) ∈ Set.Icc (0 : ℝ) 1 := by
  constructor
  · positivity
  · rcases Nat.eq_zero_or_pos data.length with h | h
    · simp [h]
    · rw [div_le_one (by exact_mod_cast h)]
      exact_mod_cast List.count_le_length b data

lemma sum_negMulLog_le_log (data : List (Fin 256)) (h : data ≠ []) :
    ∑ b : Fin 256, Real.negMulLog ((data.count b : ℝ) / (data.length : ℝ))
      ≤ Real.log 256 := by
  have hlen : (0 : ℝ) < (data.length : ℝ) := by
    exact_mod_cast List.length_pos.mpr h
  have hsum1 :
      ∑ b : Fin 256, (data.count b : ℝ) / (data.length : ℝ) = 1 := by
    rw [← Finset.sum_div]
    rw [div_eq_one_iff_eq (ne_of_gt hlen)]
    exact_mod_cast sum_count_eq_length data
  have jensen :=
    Real.concaveOn_negMulLog.le_map_sum
      (t := Finset.univ) (w := fun _ : Fin 256 => (256 : ℝ)⁻¹)
      (p := fun b : Fin 256 => (data.count b : ℝ) / (data.length : ℝ))
      (fun _ _ => by positivity)
      (by simp)
      (fun b _ => (count_div_length_mem_Icc data b).1)
  simp only [smul_eq_mul, ← Finset.mul_sum, hsum1, mul_one] at jensen
  have h256 : Real.negMulLog (256 : ℝ)⁻¹ = (256 : ℝ)⁻¹ * Real.log 256 := by
    rw [Real.negMulLog, Real.log_inv]
    ring
  rw [h256] at jensen
  have := (mul_le_mul_left (by norm_num : (0 : ℝ) < (256 : ℝ)⁻¹)).mp jensen
  exact this

lemma shannon_entropy_nonneg (data : List (Fin 256)) :
    0 ≤ shannon_entropy data := by
  rcases eq_or_ne data [] with rfl | h
  · simp [shannon_entropy]
  · rw [shannon_entropy_eq data h]
    apply div_nonneg _ (Real.log_nonneg (by norm_num))
    refine Finset.sum_nonneg fun b _ => ?_
    have := count_div_length_mem_Icc data b
    exact Real.negMulLog_nonneg this.1 this.2

lemma shannon_entropy_le_eight (data : List (Fin 256)) :
    shannon_entropy data ≤ 8 := by
  rcases eq_or_ne data [] with rfl | h
  · simp [shannon_entropy]
  · rw [shannon_entropy_eq data h]
    have hlog2 : (0 : ℝ) < Real.log 2 := Real.log_pos one_lt_two
    have h8 : (8 : ℝ) = Real.log 256 / Real.log 2 := by
      have : (256 : ℝ) = 2 ^ (8 : ℕ) := by norm_num
      rw [this, Real.log_pow]
      field_simp
    rw [h8]
    exact div_le_div_of_nonneg_right (sum_negMulLog_le_log data h) hlog2.le

lemma shannon_entropy_singleton (x : Fin 256) : shannon_entropy [x] = 0 := by
  rw [shannon_entropy, if_neg (by simp)]
  apply Finset.sum_eq_zero
  intro b _
  by_cases hb : b = x
  · subst hb
    simp [List.count_cons, Real.logb_one]
  · simp [List.count_cons, hb]

lemma except_bind_ok {α β : Type} (x : Except Unit α) (f : α → Except Unit β)
    (b : β) :
    (x >>= f) = Except.ok b ↔ ∃ a, x = Except.ok a ∧ f a = Except.ok b := by
  cases x with
  | ok a =>
    constructor
    · intro h; exact ⟨a, rfl, h⟩
    · rintro ⟨a', ha', hfa⟩
      rw [Except.ok.injEq] at ha'
      rw [ha']
      exact hfa
  | error e =>
    constructor
    · intro h; exact Except.noConfusion h
    · rintro ⟨a, ha, _⟩; exact Except.noConfusion ha

lemma except_pure_ok {β : Type} (a b : β) :
    (pure a : Except Unit β) = Except.ok b ↔ a = b := by
  constructor
  · intro h; exact Except.ok.inj h
  · rintro rfl; rfl

lemma analyze_apk_ok_inv {Net : Type}
    (ag_avail : Bool) (ag_body : Zip → Except Unit ExtractionRecord)
    (au_avail : Bool) (au_body : Zip → Except Unit ExtractionRecord)
    (iconF : Zip → Option String → Except Unit (Option String))
    (shaF : Zip → String) (simF : String → String → ℚ)
    (urlTest ipTest : String → Bool) (vtF : Net → String → VtResult)
    (z : Zip) (src : TrustSource) (net : Net) (vt_enabled : Bool)
    (r : AnalysisResult)
    (h : analyze_apk ag_avail ag_body au_avail au_body iconF shaF simF
      urlTest ipTest vtF z src net vt_enabled = Except.ok r) :
    ∃ meta, meta = choose_meta (run_backend ag_avail (ag_body z))
        (run_backend au_avail (au_body z))
    ∧ ∃ (classes : Option (List (Fin 256))) (strings : List String)
        (icon_hash : Option String) (trusted : TrustData),
      extract_zip_entry_bytes z "classes.dex" = Except.ok classes
      ∧ load_trusted_data src = Except.ok trusted
      ∧ r = ⟨shaF z, meta.bind (·.package), meta.bind (·.label),
          meta.bind (·.version_name), meta.bind (·.version_code),
          (meta.map (·.permissions)).getD [],
          dangerous_of ((meta.map (·.permissions)).getD []),
          meta.bind (·.cert_fingerprint),
          cert_match_of (meta.bind (·.cert_fingerprint)) trusted.trusted_certs,
          icon_hash,
          (match icon_hash with
            | some s =>
              if s = "" then 0
              else trusted.trusted_icons.foldl (fun acc h => max acc (simF s h)) 0
            | none => 0),
          (if bytesTruthy classes then shannon_entropy (classes.getD []) else 0),
          count_suspicious_strings urlTest ipTest strings,
          (if vt_enabled then vtF net (shaF z) else ⟨0, 0⟩)⟩ := by
  simp only [analyze_apk] at h
  rw [except_bind_ok] at h
  obtain ⟨classes, hcl, h⟩ := h
  split at h <;> rename_i hb
  · split at h
    · rw [except_bind_ok] at h
      obtain ⟨mb, hmb, h⟩ := h
      rw [except_bind_ok] at h
      obtain ⟨strings, hstr, h⟩ := h
      rw [except_bind_ok] at h
      obtain ⟨icon_hash, hicon, h⟩ := h
      rw [except_bind_ok] at h
      obtain ⟨trusted, htr, h⟩ := h
      rw [except_pure_ok] at h
      refine ⟨_, rfl, classes, strings, icon_hash, trusted, hcl, htr, ?_⟩
      rw [← h]
      simp [hb]
    · rw [except_bind_ok] at h
      obtain ⟨strings, hstr, h⟩ := h
      rw [except_bind_ok] at h
      obtain ⟨icon_hash, hicon, h⟩ := h
      rw [except_bind_ok] at h
      obtain ⟨trusted, htr, h⟩ := h
      rw [except_pure_ok] at h
      refine ⟨_, rfl, classes, strings, icon_hash, trusted, hcl, htr, ?_⟩
      rw [← h]
      simp [hb]
  · split at h
    · rw [except_bind_ok] at h
      obtain ⟨mb, hmb, h⟩ := h
      rw [except_bind_ok] at h
      obtain ⟨strings, hstr, h⟩ := h
      rw [except_bind_ok] at h
      obtain ⟨icon_hash, hicon, h⟩ := h
      rw [except_bind_ok] at h
      obtain ⟨trusted, htr, h⟩ := h
      rw [except_pure_ok] at h
      refine ⟨_, rfl, classes, strings, icon_hash, trusted, hcl, htr, ?_⟩
      rw [← h]
      simp [hb]
    · rw [except_bind_ok] at h
      obtain ⟨strings, hstr, h⟩ := h
      rw [except_bind_ok] at h
      obtain ⟨icon_hash, hicon, h⟩ := h
      rw [except_bind_ok] at h
      obtain ⟨trusted, htr, h⟩ := h
      rw [except_pure_ok] at h
      refine ⟨_, rfl, classes, strings, icon_hash, trusted, hcl, htr, ?_⟩
      rw [← h]
      simp [hb]

/-! Concrete instantiations of the external capabilities, used to witness
the orchestrator-level theorems on concrete runs. -/

def demoBody : Zip → Except Unit ExtractionRecord := fun _ => Except.error ()

def demoRec : ExtractionRecord :=
  ⟨some "com.example.app", some "Demo", some "1.0", some "7",
   ["android.permission.READ_SMS", "android.permission.INTERNET"],
   some "AB12", none⟩

def demoAg : Zip → Except Unit ExtractionRecord := fun _ => Except.ok demoRec

def demoIcon : Zip → Option String → Except Unit (Option String) :=
  fun _ _ => Except.ok none

def demoSha : Zip → String := fun _ => "00"

def demoSim : String → String → ℚ := fun _ _ => 0

def demoTest : String → Bool := fun _ => false

def demoVt : Unit → String → VtResult := fun _ _ => ⟨0, 0⟩

def demoTrust : TrustSource := TrustSource.parsed ⟨["ab12"], [], []⟩

noncomputable def demoResult : AnalysisResult :=
  ⟨"00", some "com.example.app", some "Demo", some "1.0", some "7",
   ["android.permission.READ_SMS", "android.permission.INTERNET"],
   dangerous_of ["android.permission.READ_SMS", "android.permission.INTERNET"],
   some "AB12", cert_match_of (some "AB12") ["ab12"], none, 0, 0,
   ⟨[], [], 0, 0, 0, 0⟩, ⟨0, 0⟩⟩

lemma demo_analyze_eq :
    analyze_apk true demoAg false demoBody demoIcon demoSha demoSim demoTest
      demoTest demoVt (Zip.ok []) demoTrust () false = Except.ok demoResult := rfl

noncomputable def demoEmptyResult : AnalysisResult :=
  ⟨"00", none, none, none, none, [], dangerous_of [], none, false, none, 0, 0,
   ⟨[], [], 0, 0, 0, 0⟩, ⟨0, 0⟩⟩

lemma demo_empty_analyze_eq :
    analyze_apk false demoBody false demoBody demoIcon demoSha demoSim demoTest
      demoTest demoVt (Zip.ok []) TrustSource.missing () false
      = Except.ok demoEmptyResult := rfl

noncomputable def singleByteResult : AnalysisResult :=
  ⟨"00", none, none, none, none, [], dangerous_of [], none, false, none, 0,
   shannon_entropy [65], ⟨[], [], 0, 0, 0, 0⟩, ⟨0, 0⟩⟩

/-- C3, counterexample: an archive whose `classes.dex` payload is the
single byte `65` — non-empty and successfully extracted — still records
entropy `0`, refuting "entropy is exactly 0 iff the executable payload was
empty or could not be obtained". -/
theorem entropy_zero_on_nonempty_payload :
    analyze_apk false demoBody false demoBody demoIcon demoSha demoSim demoTest
      demoTest demoVt (Zip.ok [("classes.dex", [65])]) TrustSource.missing ()
      false = Except.ok singleByteResult
    ∧ extract_zip_entry_bytes (Zip.ok [("classes.dex", [65])]) "classes.dex"
      = Except.ok (some [65])
    ∧ singleByteResult.entropy_classes_dex = 0
    ∧ ([65] : List (Fin 256)) ≠ [] := by
  refine ⟨rfl, rfl, ?_, by decide⟩
  show shannon_entropy [65] = 0
  exact shannon_entropy_singleton 65

/-- C3, amended: the entropy recorded in the analysis result lies in
`[0, 8]`, and it is `0` whenever the executable payload was unavailable or
empty (the converse direction of the claimed "iff" fails: a non-empty
payload of one repeated byte value also records `0`). -/
theorem entropy_recorded_spec {Net : Type}
    (ag_avail : Bool) (ag_body : Zip → Except Unit ExtractionRecord)
    (au_avail : Bool) (au_body : Zip → Except Unit ExtractionRecord)
    (iconF : Zip → Option String → Except Unit (Option String))
    (shaF : Zip → String) (simF : String → String → ℚ)
    (urlTest ipTest : String → Bool) (vtF : Net → String → VtResult)
    (z : Zip) (src : TrustSource) (net : Net) (vt_enabled : Bool)
    (r : AnalysisResult)
    (h : analyze_apk ag_avail ag_body au_avail au_body iconF shaF simF
      urlTest ipTest vtF z src net vt_enabled = Except.ok r) :
    0 ≤ r.entropy_classes_dex ∧ r.entropy_classes_dex ≤ 8
    ∧ ∀ classes, extract_zip_entry_bytes z "classes.dex" = Except.ok classes →
        classes = none ∨ classes = some [] → r.entropy_classes_dex = 0 := by
  obtain ⟨meta, hmeta, classes, strings, icon_hash, trusted, hcl, htr, hr⟩ :=
    analyze_apk_ok_inv ag_avail ag_body au_avail au_body iconF shaF simF
      urlTest ipTest vtF z src net vt_enabled r h
  subst hr
  dsimp only
  refine ⟨?_, ?_, ?_⟩
  · split
    · exact shannon_entropy_nonneg _
    · exact le_refl 0
  · split
    · exact shannon_entropy_le_eight _
    · norm_num
  · intro classes' hcl' hne
    rw [hcl] at hcl'
    obtain rfl : classes = classes' := Except.ok.inj hcl'
    rcases hne with rfl | rfl <;> simp [bytesTruthy]

/-- C3 witness: the amended theorem applied to a concrete run with no
`classes.dex` entry (payload unavailable): bounds hold and the recorded
entropy is `0`. -/
theorem entropy_recorded_spec_witness :
    0 ≤ demoEmptyResult.entropy_classes_dex
    ∧ demoEmptyResult.entropy_classes_dex = 0 :=
  ⟨(entropy_recorded_spec false demoBody false demoBody demoIcon demoSha
      demoSim demoTest demoTest demoVt (Zip.ok []) TrustSource.missing ()
      false demoEmptyResult demo_empty_analyze_eq).1,
   (entropy_recorded_spec false demoBody false demoBody demoIcon demoSha
      demoSim demoTest demoTest demoVt (Zip.ok []) TrustSource.missing ()
      false demoEmptyResult demo_empty_analyze_eq).2.2 none rfl (Or.inl rfl)⟩

/-- C5: a backend that is unavailable or raises internally contributes a
null record; the orchestrator takes the androguard record when non-null,
else the apkutils record; and the analysis uses the fields of the first
non-null record verbatim — with no merging — while all-null extraction
yields all-absent metadata fields and an empty permission list. -/
theorem manifest_fallback_spec :
    (∀ (avail : Bool) (e : Unit), run_backend avail (Except.error e) = none)
    ∧ (∀ (au : Option ExtractionRecord) (rec : ExtractionRecord),
        choose_meta (some rec) au = some rec)
    ∧ (∀ au : Option ExtractionRecord, choose_meta none au = au)
    ∧ ∀ {Net : Type} (ag_avail : Bool)
        (ag_body : Zip → Except Unit ExtractionRecord) (au_avail : Bool)
        (au_body : Zip → Except Unit ExtractionRecord)
        (iconF : Zip → Option String → Except Unit (Option String))
        (shaF : Zip → String) (simF : String → String → ℚ)
        (urlTest ipTest : String → Bool) (vtF : Net → String → VtResult)
        (z : Zip) (src : TrustSource) (net : Net) (vt_enabled : Bool)
        (r : AnalysisResult),
        analyze_apk ag_avail ag_body au_avail au_body iconF shaF simF
          urlTest ipTest vtF z src net vt_enabled = Except.ok r →
        (∀ rec, choose_meta (run_backend ag_avail (ag_body z))
            (run_backend au_avail (au_body z)) = some rec →
          r.package = rec.package ∧ r.app_label = rec.label
          ∧ r.version_name = rec.version_name
          ∧ r.version_code = rec.version_code
          ∧ r.permissions = rec.permissions
          ∧ r.cert_fingerprint = rec.cert_fingerprint)
        ∧ (choose_meta (run_backend ag_avail (ag_body z))
            (run_backend au_avail (au_body z)) = none →
          r.package = none ∧ r.app_label = none ∧ r.version_name = none
          ∧ r.version_code = none ∧ r.permissions = []
          ∧ r.cert_fingerprint = none) := by
  refine ⟨fun avail e => by cases avail <;> rfl, fun au rec => rfl,
    fun au => rfl, ?_⟩
  intro Net ag_avail ag_body au_avail au_body iconF shaF simF urlTest ipTest
    vtF z src net vt_enabled r h
  obtain ⟨meta, hmeta, classes, strings, icon_hash, trusted, hcl, htr, hr⟩ :=
    analyze_apk_ok_inv ag_avail ag_body au_avail au_body iconF shaF simF
      urlTest ipTest vtF z src net vt_enabled r h
  subst hr
  constructor
  · intro rec hrec
    obtain rfl : meta = some rec := hmeta.trans hrec
    exact ⟨rfl, rfl, rfl, rfl, rfl, rfl⟩
  · intro hnone
    obtain rfl : meta = none := hmeta.trans hnone
    exact ⟨rfl, rfl, rfl, rfl, rfl, rfl⟩

/-- C5 witness: the verbatim-use clause applied to a run whose first
backend returns a record, and the all-absent clause applied to a run with
both backends failing. -/
theorem manifest_fallback_spec_witness :
    (demoResult.package = demoRec.package
      ∧ demoResult.app_label = demoRec.label
      ∧ demoResult.version_name = demoRec.version_name
      ∧ demoResult.version_code = demoRec.version_code
      ∧ demoResult.permissions = demoRec.permissions
      ∧ demoResult.cert_fingerprint = demoRec.cert_fingerprint)
    ∧ (demoEmptyResult.package = none ∧ demoEmptyResult.app_label = none
      ∧ demoEmptyResult.version_name = none
      ∧ demoEmptyResult.version_code = none
      ∧ demoEmptyResult.permissions = []
      ∧ demoEmptyResult.cert_fingerprint = none) :=
  ⟨(manifest_fallback_spec.2.2.2 true demoAg false demoBody demoIcon demoSha
      demoSim demoTest demoTest demoVt (Zip.ok []) demoTrust () false
      demoResult demo_analyze_eq).1 demoRec rfl,
   (manifest_fallback_spec.2.2.2 false demoBody false demoBody demoIcon
      demoSha demoSim demoTest demoTest demoVt (Zip.ok [])
      TrustSource.missing () false demoEmptyResult demo_empty_analyze_eq).2
      rfl⟩

/-- C7: the result's certificate-trust flag is exactly the case-insensitive
membership test of the extracted fingerprint in the loaded trust database;
the flag can be `true` only when a non-empty fingerprint was extracted and
its lowercasing matches a lowercased trust entry; an absent fingerprint
never yields `true`; and fingerprint `"AB12"` matches the trust entry
`"ab12"`. -/
theorem cert_trusted_match_spec :
    (∀ {Net : Type} (ag_avail : Bool)
      (ag_body : Zip → Except Unit ExtractionRecord) (au_avail : Bool)
      (au_body : Zip → Except Unit ExtractionRecord)
      (iconF : Zip → Option String → Except Unit (Option String))
      (shaF : Zip → String) (simF : String → String → ℚ)
      (urlTest ipTest : String → Bool) (vtF : Net → String → VtResult)
      (z : Zip) (src : TrustSource) (net : Net) (vt_enabled : Bool)
      (r : AnalysisResult),
      analyze_apk ag_avail ag_body au_avail au_body iconF shaF simF
        urlTest ipTest vtF z src net vt_enabled = Except.ok r →
      ∃ trusted, load_trusted_data src = Except.ok trusted
        ∧ r.cert_trusted_match
          = cert_match_of r.cert_fingerprint trusted.trusted_certs)
    ∧ (∀ (fp : Option String) (certs : List String),
      cert_match_of fp certs = true →
      ∃ s, fp = some s ∧ s ≠ ""
        ∧ ((certs.map strLower).contains (strLower s)) = true)
    ∧ (∀ certs, cert_match_of none certs = false)
    ∧ cert_match_of (some "AB12") ["ab12"] = true := by
  refine ⟨?_, ?_, fun certs => rfl, by decide⟩
  · intro Net ag_avail ag_body au_avail au_body iconF shaF simF urlTest
      ipTest vtF z src net vt_enabled r h
    obtain ⟨meta, hmeta, classes, strings, icon_hash, trusted, hcl, htr, hr⟩ :=
      analyze_apk_ok_inv ag_avail ag_body au_avail au_body iconF shaF simF
        urlTest ipTest vtF z src net vt_enabled r h
    subst hr
    exact ⟨trusted, htr, rfl⟩
  · intro fp certs h
    match fp with
    | none => exact absurd h (by simp [cert_match_of])
    | some s =>
      simp only [cert_match_of] at h
      by_cases hs : s = ""
      · rw [if_pos hs] at h
        exact absurd h (by simp)
      · rw [if_neg hs] at h
        exact ⟨s, rfl, hs, h⟩

/-- C7 witness: the theorem applied to a concrete run whose extracted
fingerprint `"AB12"` matches the trust entry `"ab12"`, and the only-if
clause applied at that fingerprint. -/
theorem cert_trusted_match_spec_witness :
    (∃ trusted, load_trusted_data demoTrust = Except.ok trusted
      ∧ demoResult.cert_trusted_match
        = cert_match_of demoResult.cert_fingerprint trusted.trusted_certs)
    ∧ ∃ s, (some "AB12" : Option String) = some s ∧ s ≠ ""
      ∧ (((["ab12"] : List String).map strLower).contains (strLower s)) = true :=
  ⟨cert_trusted_match_spec.1 true demoAg false demoBody demoIcon demoSha
      demoSim demoTest demoTest demoVt (Zip.ok []) demoTrust () false
      demoResult demo_analyze_eq,
   cert_trusted_match_spec.2.1 (some "AB12") ["ab12"] (by decide)⟩

/-- C9: with the reputation lookup disabled — the orchestrator's default
mode and the only way `app.py` invokes it — the analysis result does not
depend on the network state: two runs over the same archive and the same
trust source yield equal results. Every other input of the embedding is a
fixed deterministic function of the archive or trust source, so the
operation is a pure function of those. -/
theorem analyze_apk_no_network {Net : Type}
    (ag_avail : Bool) (ag_body : Zip → Except Unit ExtractionRecord)
    (au_avail : Bool) (au_body : Zip → Except Unit ExtractionRecord)
    (iconF : Zip → Option String → Except Unit (Option String))
    (shaF : Zip → String) (simF : String → String → ℚ)
    (urlTest ipTest : String → Bool) (vtF : Net → String → VtResult)
    (z : Zip) (src : TrustSource) (net1 net2 : Net) :
    analyze_apk ag_avail ag_body au_avail au_body iconF shaF simF urlTest
      ipTest vtF z src net1 false
    = analyze_apk ag_avail ag_body au_avail au_body iconF shaF simF urlTest
      ipTest vtF z src net2 false := rfl

/-- C10: the derived sensitive-permission list of every analysis result is
the ascending-sorted, duplicate-free list of the declared permissions that
lie in the fixed sensitive catalog (hence a subset of the declared list,
which itself is kept verbatim), and
`["android.permission.READ_SMS", "android.permission.INTERNET"]` derives
exactly `["android.permission.READ_SMS"]`. -/
theorem dangerous_permissions_spec :
    (∀ {Net : Type} (ag_avail : Bool)
      (ag_body : Zip → Except Unit ExtractionRecord) (au_avail : Bool)
      (au_body : Zip → Except Unit ExtractionRecord)
      (iconF : Zip → Option String → Except Unit (Option String))
      (shaF : Zip → String) (simF : String → String → ℚ)
      (urlTest ipTest : String → Bool) (vtF : Net → String → VtResult)
      (z : Zip) (src : TrustSource) (net : Net) (vt_enabled : Bool)
      (r : AnalysisResult),
      analyze_apk ag_avail ag_body au_avail au_body iconF shaF simF
        urlTest ipTest vtF z src net vt_enabled = Except.ok r →
      r.dangerous_permissions = dangerous_of r.permissions)
    ∧ (∀ perms : List String, List.Sorted (· < ·) (dangerous_of perms))
    ∧ (∀ (perms : List String) (p : String),
      p ∈ dangerous_of perms ↔ p ∈ perms ∧ p ∈ DANGEROUS_PERMS)
    ∧ dangerous_of ["android.permission.READ_SMS", "android.permission.INTERNET"]
      = ["android.permission.READ_SMS"] := by
  refine ⟨?_, fun perms => Finset.sort_sorted_lt _, fun perms p => ?_, ?_⟩
  · intro Net ag_avail ag_body au_avail au_body iconF shaF simF urlTest
      ipTest vtF z src net vt_enabled r h
    obtain ⟨meta, hmeta, classes, strings, icon_hash, trusted, hcl, htr, hr⟩ :=
      analyze_apk_ok_inv ag_avail ag_body au_avail au_body iconF shaF simF
        urlTest ipTest vtF z src net vt_enabled r h
    subst hr
    rfl
  · simp [dangerous_of, Finset.mem_sort, Finset.mem_inter, List.mem_toFinset]
  · have hset :
        (["android.permission.READ_SMS",
          "android.permission.INTERNET"].toFinset ∩ DANGEROUS_PERMS.toFinset)
          = {"android.permission.READ_SMS"} := by
      apply Finset.ext
      intro x
      simp only [Finset.mem_inter, List.mem_toFinset, DANGEROUS_PERMS,
        Finset.mem_singleton, List.mem_cons, List.not_mem_nil, or_false]
      constructor
      · rintro ⟨h1 | h1, h2⟩
        · exact h1
        · subst h1; simp at h2
      · rintro rfl
        exact ⟨Or.inl rfl, by simp⟩
    unfold dangerous_of
    rw [hset, Finset.sort_singleton]

/-- C10 witness: the theorem applied to a concrete run declaring
`READ_SMS` and `INTERNET`. -/
theorem dangerous_permissions_spec_witness :
    demoResult.dangerous_permissions = dangerous_of demoResult.permissions :=
  dangerous_permissions_spec.1 true demoAg false demoBody demoIcon demoSha
    demoSim demoTest demoTest demoVt (Zip.ok []) demoTrust () false
    demoResult demo_analyze_eq

end SecureAPK
